import Mathlib

/-!
Shallow embedding of the core of the `cars-price-predictor` backend
(`backend/predictor/ml_service.py` and `backend/predictor/views.py`):

* the singleton-loaded inference service (`MLModel`, `get_price_prediction`),
* the derived-metadata cache layer (`DropdownOptionsView`, `BrandModelMappingView`),
* the prediction endpoint's persistence behaviour (`PredictPriceView.post`).

Python strings are modelled by `String`, compared code-point-lexicographically
on their character lists (this is what Python `sorted` and the database
`ORDER BY` do).  Nullable database text columns are modelled by `Option String`.
Floating-point model outputs are modelled by real numbers; `np.floor ∘ np.expm1`
becomes `fun r => ⌊Real.exp r - 1⌋ : ℝ → ℤ`.
-/

/-- Strict code-point-lexicographic order on strings (Python `<` on `str`). -/
def strLt (a b : String) : Prop := a.data < b.data

/-- Non-strict code-point-lexicographic order on strings (Python `<=` on `str`). -/
def strLe (a b : String) : Prop := a.data < b.data ∨ a.data = b.data

instance : DecidableRel strLt := fun a b => by unfold strLt; infer_instance

instance : DecidableRel strLe := fun a b => by unfold strLe; infer_instance

/-- A nullable text column value: `none` is SQL `NULL` / Python `None`. -/
abbrev DbStr := Option String

/-- Strict order on nullable strings, `NULL` sorting first (database `ORDER BY`). -/
def dbStrLt : DbStr → DbStr → Prop
  | none, none => False
  | none, some _ => True
  | some _, none => False
  | some a, some b => strLt a b

/-- Non-strict order on nullable strings, `NULL` sorting first. -/
def dbStrLe : DbStr → DbStr → Prop
  | none, _ => True
  | some _, none => False
  | some a, some b => strLe a b

instance : DecidableRel dbStrLt := fun a b => by
  unfold dbStrLt
  match a, b with
  | none, none => exact inferInstanceAs (Decidable False)
  | none, some _ => exact inferInstanceAs (Decidable True)
  | some _, none => exact inferInstanceAs (Decidable False)
  | some x, some y => exact inferInstanceAs (Decidable (strLt x y))

instance : DecidableRel dbStrLe := fun a b => by
  unfold dbStrLe
  match a, b with
  | none, _ => exact inferInstanceAs (Decidable True)
  | some _, none => exact inferInstanceAs (Decidable False)
  | some x, some y => exact inferInstanceAs (Decidable (strLe x y))

/-- A distinct `(brand, car_model)` pair as returned by
`CarListing.objects.values_list('brand', 'car_model')`. -/
abbrev Row := DbStr × DbStr

/-- Lexicographic order on `(brand, car_model)` pairs:
`.order_by('brand', 'car_model')`. -/
def rowLe (p q : Row) : Prop := dbStrLt p.1 q.1 ∨ (p.1 = q.1 ∧ dbStrLe p.2 q.2)

instance : DecidableRel rowLe := fun p q => by unfold rowLe; infer_instance

/-! ## Inference service (`backend/predictor/ml_service.py`) -/

/-- A validated feature record: the `input_data` dict handed to
`MLModel.predict`.  Only emptiness and the opaque model consumption matter to
the service, so the record is kept as an association list of field values;
Python `None`/empty dict (both falsy under `if not input_data`) are the empty
list. -/
abbrev FeatureRecord := List (String × String)

/-- The deserialized model artifact: an opaque object exposing
`predict(single_row_dataframe) -> numeric`.  Its raw output is a real. -/
abbrev ModelFn := FeatureRecord → ℝ

/-- The Python exception class of a raised error. -/
inductive PyClass where
  | valueError
  | fileNotFoundError
  | otherError
deriving DecidableEq

/-- A raised Python exception: its class and its message. -/
structure PyError where
  cls : PyClass
  msg : String
deriving DecidableEq

/-- The mutable attribute state of the `MLModel` singleton instance
(`cls._instance` survives a failed `__init__`, so this state persists across
calls):

* `initFlag` — whether the `_initialized` attribute has been set
  (it is set only *after* `_load_model()` returns without raising);
* `model` — the `_model` attribute (`none` = Python `None`);
* `attempts` — instrumentation: how many times `_load_model` has actually
  read the artifact (each call indexes into the load environment below). -/
structure MLModel where
  initFlag : Bool
  model : Option ModelFn
  attempts : ℕ

/-- The state of the model artifact on disk over time: what the `k`-th load
attempt yields — either a deserialized model or the exception
(`FileNotFoundError`, or whatever `joblib.load` raises). -/
abbrev LoadEnv := ℕ → Except PyError ModelFn

/-- `MLModel.__init__` / `_load_model`: if `_initialized` is set, do nothing;
otherwise attempt to load.  On success set `_model` and `_initialized`;
on failure set `_model = None`, leave `_initialized` unset, and re-raise the
load exception (returned as `some error`). -/
def MLModel.init (env : LoadEnv) (st : MLModel) : MLModel × Option PyError :=
  if st.initFlag then (st, none)
  else
    match env st.attempts with
    | .ok m => ({ initFlag := true, model := some m, attempts := st.attempts + 1 }, none)
    | .error e => ({ initFlag := false, model := none, attempts := st.attempts + 1 }, some e)

/-- `MLModel.predict`: raise `ValueError("Input data cannot be empty")` on a
falsy record, raise `ValueError("Model is not loaded")` when `_model is None`,
otherwise return `np.floor(np.expm1(raw_output))`.  The second component
counts how many times the loaded model's own `predict` was invoked. -/
noncomputable def MLModel.predict (st : MLModel) (input : FeatureRecord) :
    Except PyError ℤ × ℕ :=
  if input.isEmpty then
    (.error ⟨.valueError, "Input data cannot be empty"⟩, 0)
  else
    match st.model with
    | none => (.error ⟨.valueError, "Model is not loaded"⟩, 0)
    | some m => (.ok ⌊Real.exp (m input) - 1⌋, 1)

/-- `get_price_prediction`: construct (or fetch) the singleton — which may
re-raise a load error — then call `predict` on it.  Returns the call outcome,
the model-invocation count, and the singleton state after the call. -/
noncomputable def get_price_prediction (env : LoadEnv) (st : MLModel)
    (input : FeatureRecord) : (Except PyError ℤ × ℕ) × MLModel :=
  match MLModel.init env st with
  | (st', some e) => ((.error e, 0), st')
  | (st', none) => (MLModel.predict st' input, st')

/-! ## Dataset rows (`backend/predictor/models.py`, `CarListing`) -/

/-- One `CarListing` database row.  `brand` and `car_model` are modelled as
nullable at the database level (the mapping view defends against falsy values
with `if brand and model`); the numeric columns are exact. -/
structure CarListing where
  brand : DbStr
  car_model : DbStr
  year_of_production : ℤ
  mileage : ℤ
  fuel_type : String
  transmission : String
  body : String
  engine_capacity : ℚ
  power : ℚ
  number_of_doors : ℤ
  color : String
  price : ℚ

/-! ## Derived-metadata computations (`backend/predictor/views.py`) -/

/-- `sorted(qs.values_list(field, flat=True).distinct())` for a nullable
string column. -/
def distinctSortedDb (l : List DbStr) : List DbStr :=
  List.insertionSort dbStrLe l.dedup

/-- `sorted(qs.values_list(field, flat=True).distinct())` for a non-null
string column. -/
def distinctSortedStr (l : List String) : List String :=
  List.insertionSort strLe l.dedup

/-- An aggregate `{'min': ..., 'max': ...}` dict; `none` is JSON `null`
(Django's `Min`/`Max` over an empty queryset). -/
structure NumRange where
  min : Option ℤ
  max : Option ℤ
deriving DecidableEq

/-- The `unique_options` dict built by `DropdownOptionsView.get`; one field
per key, so no key can be omitted. -/
structure DropdownOptions where
  brand : List DbStr
  car_model : List DbStr
  year_of_production : NumRange
  fuel_type : List String
  transmission : List String
  body : List String
  number_of_doors : NumRange
  color : List String

/-- The dataset side of `DropdownOptionsView.get`: distinct sorted values for
the six categorical columns and `Min`/`Max` aggregates for the two numeric
ones. -/
def dropdown_options (rows : List CarListing) : DropdownOptions :=
  { brand := distinctSortedDb (rows.map (·.brand))
    car_model := distinctSortedDb (rows.map (·.car_model))
    year_of_production :=
      { min := (rows.map (·.year_of_production)).min?
        max := (rows.map (·.year_of_production)).max? }
    fuel_type := distinctSortedStr (rows.map (·.fuel_type))
    transmission := distinctSortedStr (rows.map (·.transmission))
    body := distinctSortedStr (rows.map (·.body))
    number_of_doors :=
      { min := (rows.map (·.number_of_doors)).min?
        max := (rows.map (·.number_of_doors)).max? }
    color := distinctSortedStr (rows.map (·.color)) }

/-- The `(brand, car_model)` projection of the dataset. -/
def rowPairs (rows : List CarListing) : List Row :=
  rows.map fun r => (r.brand, r.car_model)

/-- `CarListing.objects.values_list('brand', 'car_model').distinct()
.order_by('brand', 'car_model')`. -/
def distinctOrderedPairs (rows : List CarListing) : List Row :=
  List.insertionSort rowLe (rowPairs rows).dedup

/-- The `{brand: [models]}` dict under construction: a key-ordered association
list (Python dicts preserve insertion order). -/
abbrev Mapping := List (String × List String)

/-- `if brand not in mapping: mapping[brand] = []` followed by
`mapping[brand].append(model)`. -/
def addModel : Mapping → String → String → Mapping
  | [], b, m => [(b, [m])]
  | e :: rest, b, m =>
    if e.1 = b then (e.1, e.2 ++ [m]) :: rest else e :: addModel rest b m

/-- The `if brand and model:` truthiness guard of the mapping loop: yields the
unwrapped pair exactly when both components are non-`NULL` and non-empty. -/
def good : Row → Option (String × String)
  | (some b, some m) => if b = "" ∨ m = "" then none else some (b, m)
  | _ => none

/-- One iteration of the `for brand, model in brand_model_pairs:` loop. -/
def buildStep (acc : Mapping) (p : Row) : Mapping :=
  match good p with
  | some e => addModel acc e.1 e.2
  | none => acc

/-- The whole grouping loop, starting from the empty dict. -/
def buildMapping (pairs : List Row) : Mapping :=
  pairs.foldl buildStep []

/-- The final `for brand in mapping: mapping[brand].sort()` pass. -/
def sortValues (mp : Mapping) : Mapping :=
  mp.map fun e => (e.1, List.insertionSort strLe e.2)

/-- The full dataset-side computation of `BrandModelMappingView.get`. -/
def brand_model_mapping (rows : List CarListing) : Mapping :=
  sortValues (buildMapping (distinctOrderedPairs rows))

/-- `mapping[b]` on the association list (`[]` when the key is absent). -/
def valueOf : Mapping → String → List String
  | [], _ => []
  | e :: rest, b => if e.1 = b then e.2 else valueOf rest b

/-- The key list of the dict, in insertion order. -/
def keys (mp : Mapping) : List String := mp.map Prod.fst

/-! ## The cache layer (`django.core.cache` as used by the two views) -/

/-- A cache slot for one key: absent, or a value paired with its expiry
instant (`cache.set(key, v, timeout=ttl)` stores expiry `now + ttl`). -/
abbrev CacheSlot (α : Type) := Option (α × ℕ)

/-- `cache.get(key)`: the stored value if present and not expired, else
`None` (lazy eviction: an expired entry behaves exactly like a missing one). -/
def cacheGet {α : Type} (slot : CacheSlot α) (now : ℕ) : Option α :=
  match slot with
  | some (v, expiry) => if now < expiry then some v else none
  | none => none

/-- `cache.set(key, v, timeout=ttl)`. -/
def cacheSet {α : Type} (v : α) (now ttl : ℕ) : CacheSlot α :=
  some (v, now + ttl)

/-- Outcome of one GET request against a cached metadata view: the response
body, the cache slot afterwards, and whether the dataset was accessed. -/
structure ViewStep (α : Type) where
  response : α
  cacheAfter : CacheSlot α
  datasetAccessed : Bool

/-- `DropdownOptionsView.get`.  `cached_data` is the 8-key `unique_options`
dict, which is always truthy as a Python dict, so `if cached_data:` succeeds
exactly when the cache lookup returned a value.  On a miss the recomputed
dict is stored with `timeout=3600`. -/
def DropdownOptionsView.get (slot : CacheSlot DropdownOptions) (now : ℕ)
    (rows : List CarListing) : ViewStep DropdownOptions :=
  match cacheGet slot now with
  | some v => ⟨v, slot, false⟩
  | none =>
    let opts := dropdown_options rows
    ⟨opts, cacheSet opts now 3600, true⟩

/-- `BrandModelMappingView.get`.  Here `cached_data` is the mapping dict
itself, so `if cached_data:` is a *truthiness* test: a cached **empty**
mapping is falsy and falls through to recomputation.  On that path (and on a
miss) the recomputed mapping is stored with `timeout=86400`. -/
def BrandModelMappingView.get (slot : CacheSlot Mapping) (now : ℕ)
    (rows : List CarListing) : ViewStep Mapping :=
  match cacheGet slot now with
  | some mp =>
    if mp.isEmpty then
      let mp' := brand_model_mapping rows
      ⟨mp', cacheSet mp' now 86400, true⟩
    else ⟨mp, slot, false⟩
  | none =>
    let mp' := brand_model_mapping rows
    ⟨mp', cacheSet mp' now 86400, true⟩

/-! ## The prediction endpoint (`PredictPriceView.post`) -/

/-- A stored `Prediction` record (`models.py`): owner (`none` would be a
guest, but guests never reach the store), price, and the submitted fields. -/
structure Prediction where
  user : Option ℕ
  predicted_price : ℤ
  features : FeatureRecord

/-- The HTTP response produced by `PredictPriceView.post`. -/
inductive HttpResponse where
  | ok200 (price : ℤ)
  | created201 (userId : ℕ) (price : ℤ)
  | badRequest400 (msg : String)
  | serverError500

/-- `PredictPriceView.post`.  `validated` is the serializer outcome (`none` =
`ValidationError`, re-raised by DRF as a 400).  A `ValueError` from the
service maps to 400 with the message, any other exception to 500.  On
success an authenticated user gets a persisted record and a 201; a guest
gets a 200 and nothing is stored. -/
noncomputable def PredictPriceView.post (env : LoadEnv) (ml : MLModel)
    (store : List Prediction) (userId : Option ℕ)
    (validated : Option FeatureRecord) :
    HttpResponse × MLModel × List Prediction :=
  match validated with
  | none => (.badRequest400 "validation error", ml, store)
  | some input =>
    match get_price_prediction env ml input with
    | ((.error e, _), ml') =>
      match e.cls with
      | .valueError => (.badRequest400 e.msg, ml', store)
      | _ => (.serverError500, ml', store)
    | ((.ok price, _), ml') =>
      match userId with
      | some uid =>
        (.created201 uid price, ml', store ++ [⟨some uid, price, input⟩])
      | none => (.ok200 price, ml', store)

/-! ## Concrete fixtures used by witnesses and counterexamples -/

/-- A one-field (hence truthy) input record. -/
def rec0 : FeatureRecord := [("brand", "Audi")]

/-- The exception `_load_model` raises when the artifact path is missing. -/
def loadErr : PyError := ⟨.fileNotFoundError, "Model file not found"⟩

/-- A loaded model whose raw output is always `0`. -/
noncomputable def zeroModel : ModelFn := fun _ => 0

/-- A loaded model whose raw output is always `-1`. -/
noncomputable def negModel : ModelFn := fun _ => -1

/-- The singleton state before any use. -/
def mlFresh : MLModel := ⟨false, none, 0⟩

/-- A successfully initialized singleton. -/
noncomputable def mlLoaded : MLModel := ⟨true, some zeroModel, 1⟩

/-- An initialized singleton whose model output is always `-1`. -/
noncomputable def mlNeg : MLModel := ⟨true, some negModel, 1⟩

/-- A singleton state with no model attached. -/
def mlNoModel : MLModel := ⟨true, none, 1⟩

/-- An artifact environment whose first load attempt fails and whose later
attempts succeed (e.g. the model file appears after the first request). -/
noncomputable def envFailThenOk : LoadEnv := fun k =>
  if k = 0 then .error loadErr else .ok zeroModel

/-- An artifact environment where every load attempt succeeds. -/
noncomputable def envOk : LoadEnv := fun _ => .ok zeroModel

/-- The four dataset rows of the spec's mapping example, with arbitrary
values in the remaining columns. -/
def mkListing (b m : DbStr) : CarListing :=
  ⟨b, m, 2018, 50000, "Diesel", "Automatic", "Sedan", 2, 190, 5, "Black", 25000⟩

def exampleRows : List CarListing :=
  [mkListing (some "Audi") (some "A4"), mkListing (some "Audi") (some "A4"),
   mkListing (some "BMW") (some "X5"), mkListing none (some "X3")]
/-- Specification helper: the models contributed to brand `b` by a pair list,
in pair order — the sequence of second components of the pairs that pass the
truthiness guard and whose brand is `b`. -/
def goodModelsFor (b : String) (pairs : List Row) : List String :=
  pairs.filterMap fun p => (good p).bind fun e => if e.1 = b then some e.2 else none

/-- Specification helper: the brand contributed by a pair, if it passes the
truthiness guard. -/
def goodBrand (p : Row) : Option String := (good p).map Prod.fst

/-! ## Order-theoretic facts about the string and pair orders -/

theorem strDataInj {a b : String} (h : a.data = b.data) : a = b := by
  cases a; cases b; exact congrArg String.mk h

theorem strLe_refl (a : String) : strLe a a := Or.inr rfl

theorem strLt_trans {a b c : String} (h₁ : strLt a b) (h₂ : strLt b c) :
    strLt a c := lt_trans h₁ h₂

theorem strLe_trans {a b c : String} (h₁ : strLe a b) (h₂ : strLe b c) :
    strLe a c := by
  rcases h₁ with h₁ | h₁ <;> rcases h₂ with h₂ | h₂
  · exact Or.inl (lt_trans h₁ h₂)
  · exact Or.inl (h₂ ▸ h₁)
  · exact Or.inl (h₁ ▸ h₂)
  · exact Or.inr (h₁.trans h₂)

theorem strLe_total (a b : String) : strLe a b ∨ strLe b a := by
  rcases lt_trichotomy a.data b.data with h | h | h
  · exact Or.inl (Or.inl h)
  · exact Or.inl (Or.inr h)
  · exact Or.inr (Or.inl h)

theorem strLt_of_le_of_ne {a b : String} (h : strLe a b) (hne : a ≠ b) :
    strLt a b := by
  rcases h with h | h
  · exact h
  · exact absurd (strDataInj h) hne

theorem strLe_of_lt {a b : String} (h : strLt a b) : strLe a b := Or.inl h

theorem strLt_irrefl (a : String) : ¬strLt a a := lt_irrefl _

instance : IsTotal String strLe := ⟨strLe_total⟩

instance : IsTrans String strLe := ⟨fun _ _ _ => strLe_trans⟩

theorem dbStrLt_trans {a b c : DbStr} (h₁ : dbStrLt a b) (h₂ : dbStrLt b c) :
    dbStrLt a c := by
  match a, b, c with
  | none, none, _ => exact absurd h₁ (by simp [dbStrLt])
  | _, some _, none => exact absurd h₂ (by simp [dbStrLt])
  | none, some _, some _ => trivial
  | some _, none, _ => exact absurd h₁ (by simp [dbStrLt])
  | some x, some y, some z => exact strLt_trans h₁ h₂

theorem dbStrLe_trans {a b c : DbStr} (h₁ : dbStrLe a b) (h₂ : dbStrLe b c) :
    dbStrLe a c := by
  match a, b, c with
  | none, _, _ => trivial
  | some _, none, _ => exact absurd h₁ (by simp [dbStrLe])
  | some _, some _, none => exact absurd h₂ (by simp [dbStrLe])
  | some x, some y, some z => exact strLe_trans h₁ h₂

theorem dbStrLe_total (a b : DbStr) : dbStrLe a b ∨ dbStrLe b a := by
  match a, b with
  | none, _ => exact Or.inl trivial
  | some _, none => exact Or.inr trivial
  | some x, some y => exact strLe_total x y

theorem dbStrLt_trichotomy (a b : DbStr) : dbStrLt a b ∨ a = b ∨ dbStrLt b a := by
  match a, b with
  | none, none => exact Or.inr (Or.inl rfl)
  | none, some _ => exact Or.inl trivial
  | some _, none => exact Or.inr (Or.inr trivial)
  | some x, some y =>
    rcases lt_trichotomy x.data y.data with h | h | h
    · exact Or.inl h
    · exact Or.inr (Or.inl (congrArg some (strDataInj h)))
    · exact Or.inr (Or.inr h)

instance : IsTotal Row rowLe where
  total p q := by
    rcases dbStrLt_trichotomy p.1 q.1 with h | h | h
    · exact Or.inl (Or.inl h)
    · rcases dbStrLe_total p.2 q.2 with h' | h'
      · exact Or.inl (Or.inr ⟨h, h'⟩)
      · exact Or.inr (Or.inr ⟨h.symm, h'⟩)
    · exact Or.inr (Or.inl h)

instance : IsTrans Row rowLe where
  trans p q r h₁ h₂ := by
    rcases h₁ with h₁ | ⟨e₁, l₁⟩ <;> rcases h₂ with h₂ | ⟨e₂, l₂⟩
    · exact Or.inl (dbStrLt_trans h₁ h₂)
    · exact Or.inl (e₂ ▸ h₁)
    · exact Or.inl (e₁ ▸ h₂)
    · exact Or.inr ⟨e₁.trans e₂, dbStrLe_trans l₁ l₂⟩

/-! ## Structure of the mapping built by the grouping loop -/

theorem valueOf_addModel_self (mp : Mapping) (b m : String) :
    valueOf (addModel mp b m) b = valueOf mp b ++ [m] := by
  induction mp with
  | nil => simp [addModel, valueOf]
  | cons e rest ih =>
    by_cases h : e.1 = b
    · simp [addModel, valueOf, h]
    · simp [addModel, valueOf, h, ih]

theorem valueOf_addModel_other (mp : Mapping) (b m b' : String) (h : b' ≠ b) :
    valueOf (addModel mp b m) b' = valueOf mp b' := by
  induction mp with
  | nil => simp [addModel, valueOf, h.symm]
  | cons e rest ih =>
    by_cases he : e.1 = b
    · simp [addModel, valueOf, he, h.symm]
    · by_cases he' : e.1 = b' <;> simp [addModel, valueOf, he, he', ih, h]

theorem keys_addModel (mp : Mapping) (b m : String) :
    keys (addModel mp b m) =
      if b ∈ keys mp then keys mp else keys mp ++ [b] := by
  induction mp with
  | nil => simp [addModel, keys]
  | cons e rest ih =>
    by_cases h : e.1 = b
    · simp [addModel, keys, h]
    · have hne : ¬b = e.1 := fun hh => h hh.symm
      simp only [addModel, if_neg h, keys, List.map_cons, List.mem_cons, hne,
        false_or]
      simp only [keys] at ih
      rw [ih]
      by_cases hb : b ∈ List.map Prod.fst rest
      · rw [if_pos hb, if_pos hb]
      · rw [if_neg hb, if_neg hb, List.cons_append]

theorem valueOf_foldl (pairs : List Row) (acc : Mapping) (b : String) :
    valueOf (pairs.foldl buildStep acc) b =
      valueOf acc b ++ goodModelsFor b pairs := by
  induction pairs generalizing acc with
  | nil => simp [goodModelsFor]
  | cons p rest ih =>
    rw [List.foldl_cons, ih]
    simp only [goodModelsFor, List.filterMap_cons]
    cases hp : good p with
    | none => simp only [buildStep, hp]; simp [hp]
    | some e =>
      simp only [buildStep, hp]
      by_cases hb : e.1 = b
      · subst hb
        rw [valueOf_addModel_self]
        simp [hp]
      · rw [valueOf_addModel_other _ _ _ _ (fun hh => hb hh.symm)]
        simp [hp, hb]

theorem valueOf_buildMapping (pairs : List Row) (b : String) :
    valueOf (buildMapping pairs) b = goodModelsFor b pairs := by
  rw [buildMapping, valueOf_foldl]; rfl

theorem good_eq_some_iff (p : Row) (b m : String) :
    good p = some (b, m) ↔ p = (some b, some m) ∧ b ≠ "" ∧ m ≠ "" := by
  match p with
  | (none, q) => simp [good]
  | (some x, none) => simp [good]
  | (some x, some y) =>
    simp only [good]
    by_cases hx : x = ""
    · rw [if_pos (Or.inl hx)]
      constructor
      · intro h; cases h
      · rintro ⟨hp, hb, hm⟩
        injection hp with h1 h2
        injection h1 with h1'
        exact absurd (h1' ▸ hx) hb
    · by_cases hy : y = ""
      · rw [if_pos (Or.inr hy)]
        constructor
        · intro h; cases h
        · rintro ⟨hp, hb, hm⟩
          injection hp with h1 h2
          injection h2 with h2'
          exact absurd (h2' ▸ hy) hm
      · rw [if_neg (by push_neg; exact ⟨hx, hy⟩)]
        constructor
        · intro h
          injection h with h'
          injection h' with h1 h2
          subst h1; subst h2
          exact ⟨rfl, hx, hy⟩
        · rintro ⟨hp, hb, hm⟩
          injection hp with h1 h2
          injection h1 with h1'
          injection h2 with h2'
          subst h1'; subst h2'
          rfl

theorem goodFn_eq_some_iff (b m : String) (p : Row) :
    ((good p).bind fun e => if e.1 = b then some e.2 else none) = some m ↔
      p = (some b, some m) ∧ b ≠ "" ∧ m ≠ "" := by
  constructor
  · intro h
    cases hg : good p with
    | none => rw [hg] at h; cases h
    | some e =>
      rw [hg, Option.some_bind] at h
      by_cases hb : e.1 = b
      · rw [if_pos hb] at h
        injection h with hm
        obtain ⟨e1, e2⟩ := e
        dsimp at hb hm
        subst hb; subst hm
        exact (good_eq_some_iff p e1 e2).mp hg
      · rw [if_neg hb] at h; cases h
  · rintro ⟨hp, hb, hm⟩
    rw [(good_eq_some_iff p b m).mpr ⟨hp, hb, hm⟩, Option.some_bind, if_pos rfl]

theorem mem_goodModelsFor (b m : String) (pairs : List Row) :
    m ∈ goodModelsFor b pairs ↔
      (some b, some m) ∈ pairs ∧ b ≠ "" ∧ m ≠ "" := by
  rw [goodModelsFor, List.mem_filterMap]
  constructor
  · rintro ⟨p, hp, hf⟩
    obtain ⟨rfl, hb, hm⟩ := (goodFn_eq_some_iff b m p).mp hf
    exact ⟨hp, hb, hm⟩
  · rintro ⟨hp, hb, hm⟩
    exact ⟨(some b, some m), hp, (goodFn_eq_some_iff b m _).mpr ⟨rfl, hb, hm⟩⟩

theorem goodModelsFor_nodup (b : String) (pairs : List Row)
    (h : pairs.Nodup) : (goodModelsFor b pairs).Nodup := by
  refine List.Nodup.filterMap ?_ h
  intro p p' m hm hm'
  simp only [Option.mem_def] at hm hm'
  obtain ⟨hp, -, -⟩ := (goodFn_eq_some_iff b m p).mp hm
  obtain ⟨hp', -, -⟩ := (goodFn_eq_some_iff b m p').mp hm'
  rw [hp, hp']

theorem valueOf_sortValues (mp : Mapping) (b : String) :
    valueOf (sortValues mp) b = List.insertionSort strLe (valueOf mp b) := by
  induction mp with
  | nil => rfl
  | cons e rest ih =>
    rw [sortValues, List.map_cons]
    by_cases h : e.1 = b
    · simp [valueOf, h]
    · simp only [valueOf, if_neg h]
      rw [← sortValues]
      exact ih

theorem keys_sortValues (mp : Mapping) : keys (sortValues mp) = keys mp := by
  simp only [keys, sortValues, List.map_map]
  rfl

theorem valueOf_of_mem (mp : Mapping) (e : String × List String)
    (hk : (keys mp).Nodup) (hm : e ∈ mp) : valueOf mp e.1 = e.2 := by
  induction mp with
  | nil => cases hm
  | cons f rest ih =>
    rcases List.mem_cons.mp hm with rfl | hm'
    · simp [valueOf]
    · have hk' : (keys rest).Nodup := by
        simp only [keys, List.map_cons, List.nodup_cons] at hk
        exact hk.2
      have hf : f.1 ∉ keys rest := by
        simp only [keys, List.map_cons, List.nodup_cons] at hk
        exact hk.1
      have hne : ¬f.1 = e.1 := by
        intro hh
        exact hf (hh ▸ (List.mem_map.mpr ⟨e, hm', rfl⟩))
      simp only [valueOf, if_neg hne]
      exact ih hk' hm'

theorem keys_foldl_nodup (pairs : List Row) (acc : Mapping)
    (hacc : (keys acc).Nodup) : (keys (pairs.foldl buildStep acc)).Nodup := by
  induction pairs generalizing acc with
  | nil => exact hacc
  | cons p rest ih =>
    rw [List.foldl_cons]
    cases hp : good p with
    | none => simp only [buildStep, hp]; exact ih _ hacc
    | some e =>
      simp only [buildStep, hp]
      refine ih _ ?_
      rw [keys_addModel]
      by_cases hb : e.1 ∈ keys acc
      · rwa [if_pos hb]
      · rw [if_neg hb, ← List.concat_eq_append]
        exact hacc.concat hb

theorem goodBrand_some (p : Row) (bb : String) (h : goodBrand p = some bb) :
    p.1 = some bb ∧ bb ≠ "" := by
  rw [goodBrand] at h
  rcases Option.map_eq_some'.mp h with ⟨e, he, rfl⟩
  obtain ⟨e1, e2⟩ := e
  obtain ⟨hp, hb, -⟩ := (good_eq_some_iff p e1 e2).mp he
  exact ⟨by rw [hp], hb⟩

theorem keys_foldl_sorted (pairs : List Row) (acc : Mapping)
    (hacc : (keys acc).Sorted strLt)
    (hsep : ∀ k ∈ keys acc, ∀ p ∈ pairs, ∀ e, good p = some e → strLe k e.1)
    (hbr : (pairs.filterMap goodBrand).Sorted strLe) :
    (keys (pairs.foldl buildStep acc)).Sorted strLt := by
  induction pairs generalizing acc with
  | nil => exact hacc
  | cons p rest ih =>
    rw [List.foldl_cons]
    cases hp : good p with
    | none =>
      simp only [buildStep, hp]
      have hgb : goodBrand p = none := by rw [goodBrand, hp]; rfl
      rw [List.filterMap_cons_none hgb] at hbr
      exact ih _ hacc
        (fun k hk q hq e' he' => hsep k hk q (List.mem_cons_of_mem _ hq) e' he')
        hbr
    | some e =>
      simp only [buildStep, hp]
      have hgb : goodBrand p = some e.1 := by rw [goodBrand, hp]; rfl
      rw [List.filterMap_cons_some hgb] at hbr
      have hbr' : (rest.filterMap goodBrand).Sorted strLe := hbr.of_cons
      have hhead : ∀ x ∈ rest.filterMap goodBrand, strLe e.1 x :=
        List.rel_of_sorted_cons hbr
      by_cases hmem : e.1 ∈ keys acc
      · refine ih _ ?_ ?_ hbr'
        · rwa [keys_addModel, if_pos hmem]
        · intro k hk q hq e' he'
          rw [keys_addModel, if_pos hmem] at hk
          exact hsep k hk q (List.mem_cons_of_mem _ hq) e' he'
      · refine ih _ ?_ ?_ hbr'
        · rw [keys_addModel, if_neg hmem]
          show List.Pairwise strLt (keys acc ++ [e.1])
          rw [List.pairwise_append]
          refine ⟨hacc, by simp, ?_⟩
          intro a ha bb hbb
          rw [List.mem_singleton] at hbb; subst hbb
          have hle := hsep a ha p (List.mem_cons_self _ _) e hp
          exact strLt_of_le_of_ne hle (fun hh => hmem (hh ▸ ha))
        · intro k hk q hq e' he'
          rw [keys_addModel, if_neg hmem] at hk
          rcases List.mem_append.mp hk with hk | hk
          · exact hsep k hk q (List.mem_cons_of_mem _ hq) e' he'
          · rw [List.mem_singleton] at hk; subst hk
            refine hhead _ (List.mem_filterMap.mpr ⟨q, hq, ?_⟩)
            rw [goodBrand, he']; rfl

theorem distinctOrderedPairs_sorted (rows : List CarListing) :
    (distinctOrderedPairs rows).Sorted rowLe :=
  List.sorted_insertionSort rowLe _

theorem distinctOrderedPairs_nodup (rows : List CarListing) :
    (distinctOrderedPairs rows).Nodup :=
  ((List.perm_insertionSort rowLe _).nodup_iff).mpr (List.nodup_dedup _)

theorem mem_distinctOrderedPairs (rows : List CarListing) (p : Row) :
    p ∈ distinctOrderedPairs rows ↔ p ∈ rowPairs rows := by
  rw [distinctOrderedPairs, List.mem_insertionSort, List.mem_dedup]

theorem goodBrands_sorted (rows : List CarListing) :
    ((distinctOrderedPairs rows).filterMap goodBrand).Sorted strLe := by
  have hs := distinctOrderedPairs_sorted rows
  rw [List.Sorted] at hs ⊢
  refine List.pairwise_filterMap.mpr (hs.imp ?_)
  intro p q hpq bb hbb bb' hbb'
  simp only [Option.mem_def] at hbb hbb'
  obtain ⟨hp1, -⟩ := goodBrand_some p bb hbb
  obtain ⟨hq1, -⟩ := goodBrand_some q bb' hbb'
  rcases hpq with hlt | ⟨heq, -⟩
  · rw [hp1, hq1] at hlt
    exact strLe_of_lt hlt
  · rw [hp1, hq1] at heq
    injection heq with heq'
    exact heq' ▸ strLe_refl bb

theorem brand_model_mapping_keys_nodup (rows : List CarListing) :
    (keys (brand_model_mapping rows)).Nodup := by
  rw [brand_model_mapping, keys_sortValues, buildMapping]
  exact keys_foldl_nodup _ _ (by simp [keys])

theorem mem_valueOf_brand_model_mapping (rows : List CarListing) (b m : String) :
    m ∈ valueOf (brand_model_mapping rows) b ↔
      (some b, some m) ∈ rowPairs rows ∧ b ≠ "" ∧ m ≠ "" := by
  rw [brand_model_mapping, valueOf_sortValues, valueOf_buildMapping,
    List.mem_insertionSort, mem_goodModelsFor, mem_distinctOrderedPairs]

/-! ## Claims -/

/-- C1 counterexample: the claim says that after a failed first load no
subsequent call re-attempts loading and no later call can succeed.  In the
code `_initialized` is only set after a *successful* load, so with an
environment whose first load attempt fails and whose second succeeds, the
first call raises the load error but the second call succeeds. -/
theorem C1_counterexample :
    (get_price_prediction envFailThenOk mlFresh rec0).1.1 = .error loadErr ∧
    (get_price_prediction envFailThenOk
        (get_price_prediction envFailThenOk mlFresh rec0).2 rec0).1.1 =
      .ok 0 := by
  refine ⟨rfl, ?_⟩
  show Except.ok ⌊Real.exp (zeroModel rec0) - 1⌋ = Except.ok 0
  simp [zeroModel, Real.exp_zero]

/-- C1 (amended): after a failed load the singleton stays uninitialized, so
every subsequent call re-attempts the load (reading the artifact again);
while attempts keep failing each call fails with the load error itself, and
as soon as an attempt succeeds the call succeeds — the failure is not
terminal for the process. -/
theorem C1_amended_reload_behaviour :
    (∀ (env : LoadEnv) (st : MLModel) (input : FeatureRecord) (e : PyError),
      st.initFlag = false → env st.attempts = .error e →
      get_price_prediction env st input =
        ((.error e, 0), ⟨false, none, st.attempts + 1⟩)) ∧
    (∀ (env : LoadEnv) (st : MLModel) (input : FeatureRecord) (m : ModelFn),
      st.initFlag = false → env st.attempts = .ok m → input.isEmpty = false →
      get_price_prediction env st input =
        ((.ok ⌊Real.exp (m input) - 1⌋, 1), ⟨true, some m, st.attempts + 1⟩)) := by
  constructor
  · intro env st input e h1 h2
    simp [get_price_prediction, MLModel.init, h1, h2]
  · intro env st input m h1 h2 h3
    simp [get_price_prediction, MLModel.init, MLModel.predict, h1, h2, h3]

/-- C1 witness: the failing branch of the amended claim at a concrete state
and environment. -/
theorem C1_amended_witness :
    get_price_prediction envFailThenOk mlFresh rec0 =
      ((.error loadErr, 0), ⟨false, none, 1⟩) :=
  C1_amended_reload_behaviour.1 envFailThenOk mlFresh rec0 loadErr rfl rfl

/-- C2 counterexample: a cached empty mapping is present and not expired, yet
the mapping view hits the dataset again (`if cached_data:` is a truthiness
test, and an empty dict is falsy). -/
theorem C2_counterexample :
    cacheGet (some (([] : Mapping), 100)) 0 = some [] ∧
    (BrandModelMappingView.get (some ([], 100)) 0 []).datasetAccessed =
      true :=
  ⟨rfl, rfl⟩

/-- C2 (amended): a present, unexpired cache entry is returned verbatim with
no dataset access — unconditionally for the dropdown view, and provided the
cached mapping is non-empty for the mapping view (a cached *empty* mapping is
falsy and is treated as a miss and recomputed); on a miss the recomputed
result is stored with TTL exactly 3600 s (dropdown) / 86400 s (mapping), so
a second call inside the TTL window returns the identical result without
dataset access (for the mapping view, provided the result is non-empty). -/
theorem C2_amended_cache_policy :
    (∀ (slot : CacheSlot DropdownOptions) (now : ℕ) (rows : List CarListing)
        (v : DropdownOptions),
      cacheGet slot now = some v →
      DropdownOptionsView.get slot now rows = ⟨v, slot, false⟩) ∧
    (∀ (slot : CacheSlot Mapping) (now : ℕ) (rows : List CarListing)
        (mp : Mapping),
      cacheGet slot now = some mp → mp ≠ [] →
      BrandModelMappingView.get slot now rows = ⟨mp, slot, false⟩) ∧
    (∀ (slot : CacheSlot DropdownOptions) (now : ℕ) (rows : List CarListing),
      cacheGet slot now = none →
      DropdownOptionsView.get slot now rows =
        ⟨dropdown_options rows, some (dropdown_options rows, now + 3600),
          true⟩) ∧
    (∀ (slot : CacheSlot Mapping) (now : ℕ) (rows : List CarListing),
      cacheGet slot now = none ∨ cacheGet slot now = some [] →
      BrandModelMappingView.get slot now rows =
        ⟨brand_model_mapping rows,
          some (brand_model_mapping rows, now + 86400), true⟩) ∧
    (∀ (now now' : ℕ) (rows : List CarListing),
      now ≤ now' → now' < now + 3600 →
      DropdownOptionsView.get
          (DropdownOptionsView.get none now rows).cacheAfter now' rows =
        ⟨dropdown_options rows, some (dropdown_options rows, now + 3600),
          false⟩) ∧
    (∀ (now now' : ℕ) (rows : List CarListing),
      now ≤ now' → now' < now + 86400 → brand_model_mapping rows ≠ [] →
      BrandModelMappingView.get
          (BrandModelMappingView.get none now rows).cacheAfter now' rows =
        ⟨brand_model_mapping rows,
          some (brand_model_mapping rows, now + 86400), false⟩) := by
  refine ⟨?_, ?_, ?_, ?_, ?_, ?_⟩
  · intro slot now rows v h
    simp [DropdownOptionsView.get, h]
  · intro slot now rows mp h hne
    cases mp with
    | nil => exact absurd rfl hne
    | cons a l => simp [BrandModelMappingView.get, h]
  · intro slot now rows h
    simp [DropdownOptionsView.get, cacheSet, h]
  · intro slot now rows h
    rcases h with h | h <;> simp [BrandModelMappingView.get, cacheSet, h]
  · intro now now' rows h1 h2
    have hget :
        cacheGet (some (dropdown_options rows, now + 3600)) now' =
          some (dropdown_options rows) := by
      simp [cacheGet, h2]
    show DropdownOptionsView.get
        (some (dropdown_options rows, now + 3600)) now' rows = _
    simp [DropdownOptionsView.get, hget]
  · intro now now' rows h1 h2 hne
    have hget :
        cacheGet (some (brand_model_mapping rows, now + 86400)) now' =
          some (brand_model_mapping rows) := by
      simp [cacheGet, h2]
    show BrandModelMappingView.get
        (some (brand_model_mapping rows, now + 86400)) now' rows = _
    simp [BrandModelMappingView.get, hget, hne]

/-- C2 witness: a cache hit at a concrete slot, instant and dataset. -/
theorem C2_amended_witness :
    DropdownOptionsView.get (some (dropdown_options [], 100)) 0 [] =
      ⟨dropdown_options [], some (dropdown_options [], 100), false⟩ :=
  C2_amended_cache_policy.1 _ 0 [] _ rfl

/-- C3 counterexample: a loaded model whose raw output is `-1` makes
`predict` return `⌊exp (-1) - 1⌋ = -1`, a negative price, refuting
non-negativity over all raw outputs. -/
theorem C3_counterexample :
    MLModel.predict mlNeg rec0 = (.ok (-1), 1) ∧ (-1 : ℤ) < 0 := by
  constructor
  · show (Except.ok ⌊Real.exp (negModel rec0) - 1⌋, 1) = (Except.ok (-1 : ℤ), 1)
    have hfl : ⌊Real.exp (-1 : ℝ) - 1⌋ = -1 := by
      rw [Int.floor_eq_iff]
      constructor
      · have := Real.exp_pos (-1 : ℝ); push_cast; linarith
      · have h : Real.exp (-1 : ℝ) < 1 := Real.exp_lt_one_iff.mpr (by norm_num)
        push_cast; linarith
    simp [negModel, hfl]
  · norm_num

/-- C3 (amended): for every valid record the returned price is a (finite)
integer that is at least `-1`, and it is non-negative whenever the model's
raw output is non-negative (raw outputs are log1p-transformed prices, hence
non-negative for the training distribution); for negative raw outputs the
price is `-1`. -/
theorem C3_amended_price_bounds :
    ∀ (st : MLModel) (input : FeatureRecord) (m : ModelFn),
      st.model = some m → input.isEmpty = false →
      (MLModel.predict st input).1 = .ok ⌊Real.exp (m input) - 1⌋ ∧
      -1 ≤ ⌊Real.exp (m input) - 1⌋ ∧
      (0 ≤ m input → 0 ≤ ⌊Real.exp (m input) - 1⌋) := by
  intro st input m h1 h2
  refine ⟨by simp [MLModel.predict, h1, h2], ?_, ?_⟩
  · rw [Int.le_floor]
    have := Real.exp_pos (m input)
    push_cast; linarith
  · intro h
    rw [Int.le_floor]
    have h1' : Real.exp 0 ≤ Real.exp (m input) := Real.exp_le_exp.mpr h
    rw [Real.exp_zero] at h1'
    push_cast; linarith

/-- C3 witness: the amended bounds at a concrete loaded state and record. -/
theorem C3_amended_witness :
    (MLModel.predict mlLoaded rec0).1 = .ok ⌊Real.exp (zeroModel rec0) - 1⌋ ∧
    -1 ≤ ⌊Real.exp (zeroModel rec0) - 1⌋ ∧
    (0 ≤ zeroModel rec0 → 0 ≤ ⌊Real.exp (zeroModel rec0) - 1⌋) :=
  C3_amended_price_bounds mlLoaded rec0 zeroModel rfl rfl

/-- C4 counterexample: both failure modes of `predict` raise the *same*
Python class (`ValueError`), so a caller cannot distinguish them by error
type alone. -/
theorem C4_counterexample :
    (MLModel.predict mlNoModel []).1 =
        .error ⟨.valueError, "Input data cannot be empty"⟩ ∧
    (MLModel.predict mlNoModel rec0).1 =
        .error ⟨.valueError, "Model is not loaded"⟩ ∧
    (PyError.mk .valueError "Input data cannot be empty").cls =
        (PyError.mk .valueError "Model is not loaded").cls :=
  ⟨rfl, rfl, rfl⟩

/-- C4 (amended): `predict` signals its two failure modes with the same
exception class, `ValueError`, but with two distinct messages
("Input data cannot be empty" for an empty/null record, "Model is not
loaded" when no model is attached), so the cases are distinguishable by
message, not by type. -/
theorem C4_amended_error_reporting :
    (∀ (st : MLModel) (input : FeatureRecord), input.isEmpty = true →
      (MLModel.predict st input).1 =
        .error ⟨.valueError, "Input data cannot be empty"⟩) ∧
    (∀ (st : MLModel) (input : FeatureRecord), input.isEmpty = false →
      st.model = none →
      (MLModel.predict st input).1 =
        .error ⟨.valueError, "Model is not loaded"⟩) ∧
    "Input data cannot be empty" ≠ "Model is not loaded" := by
  refine ⟨?_, ?_, by decide⟩
  · intro st input h
    simp [MLModel.predict, h]
  · intro st input h1 h2
    simp [MLModel.predict, h1, h2]

/-- C4 witness: the empty-input branch of the amended claim at a concrete
state. -/
theorem C4_amended_witness :
    (MLModel.predict mlNoModel []).1 =
      .error ⟨.valueError, "Input data cannot be empty"⟩ :=
  C4_amended_error_reporting.1 mlNoModel [] rfl

/-- C5: for every non-empty record and loaded model with raw output `r`,
`predict` returns exactly `floor(exp r - 1)` (floor, not round) and invokes
the model exactly once — no other transformation of the raw output. -/
theorem C5_exact_inverse_transform :
    ∀ (st : MLModel) (input : FeatureRecord) (m : ModelFn),
      st.model = some m → input.isEmpty = false →
      MLModel.predict st input = (.ok ⌊Real.exp (m input) - 1⌋, 1) := by
  intro st input m h1 h2
  simp [MLModel.predict, h1, h2]

/-- C5 witness: the exact transform at a concrete loaded state and record. -/
theorem C5_witness :
    MLModel.predict mlLoaded rec0 = (.ok ⌊Real.exp (zeroModel rec0) - 1⌋, 1) :=
  C5_exact_inverse_transform mlLoaded rec0 zeroModel rfl rfl

/-- C6: for every dataset, the brand→models mapping contains exactly the
distinct `(brand, model)` pairs of the dataset with null/empty components
excluded — `m ∈ mapping[b]` iff the pair occurs in the dataset and both parts
are truthy — with every per-brand model list sorted ascending and duplicate
free; the spec's four-row example yields exactly
`{"Audi": ["A4"], "BMW": ["X5"]}`, and an empty dataset yields an empty
mapping rather than an error. -/
theorem C6_mapping_content :
    (∀ (rows : List CarListing) (b m : String),
      m ∈ valueOf (brand_model_mapping rows) b ↔
        (some b, some m) ∈ rowPairs rows ∧ b ≠ "" ∧ m ≠ "") ∧
    (∀ (rows : List CarListing) (e : String × List String),
      e ∈ brand_model_mapping rows → e.2.Sorted strLe ∧ e.2.Nodup) ∧
    brand_model_mapping exampleRows = [("Audi", ["A4"]), ("BMW", ["X5"])] ∧
    brand_model_mapping [] = [] := by
  refine ⟨mem_valueOf_brand_model_mapping, ?_, by decide, rfl⟩
  intro rows e he
  rw [brand_model_mapping, sortValues] at he
  obtain ⟨e0, he0, rfl⟩ := List.mem_map.mp he
  refine ⟨List.sorted_insertionSort _ _, ?_⟩
  have hkn : (keys (buildMapping (distinctOrderedPairs rows))).Nodup := by
    have h := brand_model_mapping_keys_nodup rows
    rwa [brand_model_mapping, keys_sortValues] at h
  have hv := valueOf_of_mem _ e0 hkn he0
  have hnd : e0.2.Nodup := by
    rw [← hv, valueOf_buildMapping]
    exact goodModelsFor_nodup _ _ (distinctOrderedPairs_nodup rows)
  exact ((List.perm_insertionSort strLe e0.2).nodup_iff).mpr hnd

/-- C6 witness: the membership characterization instantiated on the spec's
own example dataset. -/
theorem C6_witness :
    "A4" ∈ valueOf (brand_model_mapping exampleRows) "Audi" :=
  (C6_mapping_content.1 exampleRows "Audi" "A4").mpr
    ⟨by decide, by decide, by decide⟩

/-- C7: on an empty dataset the dropdown computation succeeds and returns
every categorical key as an empty sequence and every numeric-range key as
`{min: null, max: null}`, with no key omitted (the result is a record with
all eight keys); the view serves exactly this value on a cache miss. -/
theorem C7_dropdown_empty_dataset :
    dropdown_options [] =
      { brand := [], car_model := [], year_of_production := ⟨none, none⟩,
        fuel_type := [], transmission := [], body := [],
        number_of_doors := ⟨none, none⟩, color := [] } ∧
    DropdownOptionsView.get none 0 [] =
      ⟨dropdown_options [], some (dropdown_options [], 3600), true⟩ :=
  ⟨rfl, rfl⟩

/-- C8: `predict` on an empty/null record always fails with the
invalid-input `ValueError` and never invokes the loaded model (invocation
count 0), for *every* singleton state — loaded or not — because the
emptiness check precedes any model access. -/
theorem C8_empty_input_rejected :
    ∀ (st : MLModel) (input : FeatureRecord), input.isEmpty = true →
      MLModel.predict st input =
        (.error ⟨.valueError, "Input data cannot be empty"⟩, 0) := by
  intro st input h
  simp [MLModel.predict, h]

/-- C8 witness: the empty record at a state with a model loaded — the error
is raised and the model is still never invoked. -/
theorem C8_witness :
    MLModel.predict mlLoaded [] =
      (.error ⟨.valueError, "Input data cannot be empty"⟩, 0) :=
  C8_empty_input_rejected mlLoaded [] rfl

/-- C9: a guest (unauthenticated) request never changes the prediction
store, whatever the outcome; a successful authenticated request appends
exactly one record, owned by the requesting user, before the 201 response is
returned. -/
theorem C9_persistence_frame :
    (∀ (env : LoadEnv) (ml : MLModel) (store : List Prediction)
        (input : FeatureRecord),
      (PredictPriceView.post env ml store none (some input)).2.2 = store) ∧
    (∀ (env : LoadEnv) (ml : MLModel) (store : List Prediction) (uid : ℕ)
        (input : FeatureRecord) (price : ℤ) (ml' : MLModel),
      get_price_prediction env ml input = ((.ok price, 1), ml') →
      PredictPriceView.post env ml store (some uid) (some input) =
        (.created201 uid price, ml',
          store ++ [⟨some uid, price, input⟩])) := by
  constructor
  · intro env ml store input
    rcases hres : get_price_prediction env ml input with ⟨⟨res, n⟩, ml'⟩
    cases res with
    | error e =>
      obtain ⟨cls, msg⟩ := e
      cases cls <;> simp [PredictPriceView.post, hres]
    | ok p => simp [PredictPriceView.post, hres]
  · intro env ml store uid input price ml' h
    simp [PredictPriceView.post, h]

/-- C9 witness: a concrete successful authenticated request appends the one
record owned by user 7. -/
theorem C9_witness :
    PredictPriceView.post envOk mlLoaded [] (some 7) (some rec0) =
      (.created201 7 ⌊Real.exp (zeroModel rec0) - 1⌋, mlLoaded,
        [] ++ [⟨some 7, ⌊Real.exp (zeroModel rec0) - 1⌋, rec0⟩]) :=
  C9_persistence_frame.2 envOk mlLoaded [] 7 rec0 _ _ rfl

/-- C10 (implicit): the brand keys of the mapping are always in strictly
ascending sorted order, for every dataset — the distinct pairs are fetched
ordered by brand then model, and brands enter the dict in first-seen
order. -/
theorem C10_brand_keys_sorted :
    ∀ rows : List CarListing,
      ((brand_model_mapping rows).map Prod.fst).Sorted strLt := by
  intro rows
  show (keys (brand_model_mapping rows)).Sorted strLt
  rw [brand_model_mapping, keys_sortValues, buildMapping]
  refine keys_foldl_sorted _ _ (by simp [keys]) ?_ (goodBrands_sorted rows)
  intro k hk
  exact absurd hk (by simp [keys])
